import Mathlib

/-!
Verification of the node-agent reconciliation engine and the build/image
API helpers of this repository, as a shallow embedding in Lean 4.

The reconciliation core (pod worker pool, syncPod, SyncPods, health
evaluation, fingerprinting, host-port conflict filtering) is not shipped
in this source snapshot; those definitions are modelled from the design
specification and are marked as such in their doc comments.  The build
validation, webhook controller and image-repository REST definitions are
translated directly from the Go sources.
-/

set_option maxHeartbeats 1000000

/- ===================== Data model ===================== -/

/-- Modelled from the spec: an exposed port of a container
(container port, optional host port, protocol). -/
structure Port where
  containerPort : Nat
  hostPort : Option Nat
  protocol : String
deriving DecidableEq

/-- Modelled from the spec: an optional liveness probe
(initial-delay seconds plus a check definition; the check itself is an
external collaborator). -/
structure LivenessProbe where
  initialDelaySeconds : Nat
deriving DecidableEq

/-- Modelled from the spec: a desired container specification. -/
structure ContainerSpec where
  name : String
  image : String
  command : List String
  env : List (String × String)
  ports : List Port
  volumeMounts : List String
  privileged : Bool
  restartNever : Bool
  livenessProbe : Option LivenessProbe
deriving DecidableEq

/-- Modelled from the spec: a pod, identity plus desired containers. -/
structure Pod where
  name : String
  ns : String
  containers : List ContainerSpec
deriving DecidableEq

/-- Modelled from the spec: the runtime view of a container on the node. -/
structure RuntimeContainer where
  id : Nat
  podFullName : String
  ctrName : String
  fingerprint : Nat
  createdAt : Nat
  running : Bool
deriving DecidableEq

/-- Modelled from the spec: the derived globally unique pod key. -/
def podFullName (p : Pod) : String :=
  p.name ++ "." ++ p.ns

/-- Modelled from the spec: health of a running container. -/
inductive Health where
  | healthy
  | unhealthy
deriving DecidableEq

/-- An external liveness prober: given pod key, spec and runtime container,
returns a health verdict or an error (checker failure). -/
abbrev Prober := String → ContainerSpec → RuntimeContainer → Except String Health

/- ===================== ContentHasher ===================== -/

/-- Modelled from the spec: a deterministic 32-bit string hash used by the
content fingerprinter. -/
def hashString (s : String) : Nat :=
  s.data.foldl (fun h c => (h * 31 + c.toNat) % 4294967296) 7

/-- Modelled from the spec: fold a list of 32-bit values into one. -/
def hashCombine (l : List Nat) : Nat :=
  l.foldl (fun h x => (h * 131 + x) % 4294967296) 17

/-- Modelled from the spec: hash of one exposed port. -/
def hashPort (pt : Port) : Nat :=
  hashCombine [pt.containerPort, pt.hostPort.getD 0, hashString pt.protocol]

/-- Modelled from the spec: `Fingerprint(ContainerSpec) -> uint32`, a pure
deterministic hash of the behavior-affecting fields (image, command, env,
ports, mounts, privilege). -/
def Fingerprint (c : ContainerSpec) : Nat :=
  hashCombine
    [hashString c.image,
     hashCombine (c.command.map hashString),
     hashCombine (c.env.map (fun e => hashCombine [hashString e.1, hashString e.2])),
     hashCombine (c.ports.map hashPort),
     hashCombine (c.volumeMounts.map hashString),
     if c.privileged then 1 else 0]

/-- Modelled from the spec: the reconciler treats a recorded fingerprint of
`0` as "unknown/legacy, treat as a match"; otherwise it must equal the
desired fingerprint. -/
def fingerprintMatches (rc : RuntimeContainer) (c : ContainerSpec) : Bool :=
  rc.fingerprint == 0 || rc.fingerprint == Fingerprint c

/- ===================== HealthEvaluator ===================== -/

/-- Modelled from the spec: `HealthEvaluator.Evaluate`.  No liveness probe
declared: healthy iff the runtime reports the container running.  Probe
declared but still within `InitialDelaySeconds` of creation: always
healthy.  Otherwise: delegate to the configured probe; a probe error is
surfaced as an error, not mapped to unhealthy. -/
def Evaluate (probe : Prober) (now : Nat) (pfn : String)
    (c : ContainerSpec) (rc : RuntimeContainer) : Except String Health :=
  match c.livenessProbe with
  | none => Except.ok (if rc.running then Health.healthy else Health.unhealthy)
  | some lp =>
      if now < rc.createdAt + lp.initialDelaySeconds then Except.ok Health.healthy
      else probe pfn c rc

/- ===================== PodWorkerPool ===================== -/

/-- Modelled from the spec: the worker pool state, the set of pod keys with
a busy worker (the only shared mutable structure). -/
structure PoolState where
  busy : List String
deriving DecidableEq

/-- Modelled from the spec: observable pool events — a `Run(podKey, action)`
call, or the completion of an in-flight action (normally or by recovering
from a panic). -/
inductive PoolEvent where
  | runCall (k : String)
  | finish (k : String) (panicked : Bool)
deriving DecidableEq

/-- Modelled from the spec: one pool transition.  A `Run` call for a busy
key is a silent no-op; for a free key it marks the key busy and starts the
action (the returned flag).  On completion, success or panic alike, the
busy mark is cleared. -/
def applyEvent (s : PoolState) (e : PoolEvent) : PoolState × Bool :=
  match e with
  | PoolEvent.runCall k =>
      if s.busy.contains k then (s, false) else (⟨k :: s.busy⟩, true)
  | PoolEvent.finish k _ => (⟨s.busy.erase k⟩, false)

/-- Modelled from the spec: pool state plus, per key, the number of
in-flight actions for that key, evolved along an event trace. -/
def traceStep (sf : PoolState × (String → Nat)) (e : PoolEvent) :
    PoolState × (String → Nat) :=
  let s' := (applyEvent sf.1 e).1
  match e with
  | PoolEvent.runCall k =>
      if (applyEvent sf.1 e).2 then
        (s', fun k' => if k' = k then sf.2 k + 1 else sf.2 k')
      else (s', sf.2)
  | PoolEvent.finish k _ => (s', fun k' => if k' = k then sf.2 k - 1 else sf.2 k')

/-- Modelled from the spec: the pool invariant tying the busy set to the
in-flight count — a key is busy iff exactly one action is in flight for it,
and the busy set has no duplicates. -/
def PoolInv (sf : PoolState × (String → Nat)) : Prop :=
  sf.1.busy.Nodup ∧ ∀ k, sf.2 k = (if k ∈ sf.1.busy then 1 else 0)

/- ===================== ClusterSyncLoop: host-port filtering ============ -/

/-- Modelled from the spec: the (host port, protocol) pairs claimed by a
pod's containers. -/
def podPortClaims (p : Pod) : List (Nat × String) :=
  p.containers.flatMap
    (fun c => c.ports.filterMap (fun pt => pt.hostPort.map (fun h => (h, pt.protocol))))

/-- Modelled from the spec: two pods conflict when they claim a common
(host port, protocol) pair. -/
def sharesPort (p q : Pod) : Bool :=
  (podPortClaims p).any (fun x => (podPortClaims q).contains x)

/-- Modelled from the spec: SET-event filtering — walk the payload in
order, drop any pod whose claims collide with the claims accumulated from
the pods retained so far, retain it otherwise. -/
def filterHostPortConflicts : List Pod → List (Nat × String) → List Pod
  | [], _ => []
  | p :: rest, claimed =>
      let cl := podPortClaims p
      if cl.any (fun x => claimed.contains x) then filterHostPortConflicts rest claimed
      else p :: filterHostPortConflicts rest (claimed ++ cl)

/-- Modelled from the spec: the retain/drop flag of each payload position
under SET-event filtering, parallel to `filterHostPortConflicts`. -/
def keptFlags : List Pod → List (Nat × String) → List Bool
  | [], _ => []
  | p :: rest, claimed =>
      let cl := podPortClaims p
      if cl.any (fun x => claimed.contains x) then false :: keptFlags rest claimed
      else true :: keptFlags rest (claimed ++ cl)

/-- Modelled from the spec: a SET event replaces the desired list wholesale
with its payload after host-port conflict filtering; filtering is total,
never fatal to the event. -/
def handleSet (payload : List Pod) : List Pod :=
  filterHostPortConflicts payload []

/- ===================== Node runtime state ===================== -/

/-- Modelled from the spec: the runtime state of the node — the current
containers plus the next fresh runtime id. -/
structure NodeState where
  containers : List RuntimeContainer
  nextId : Nat
deriving DecidableEq

/-- A well-formed runtime state: container ids are distinct and below the
fresh-id counter. -/
def WF (s : NodeState) : Prop :=
  (s.containers.map (fun c => c.id)).Nodup ∧ ∀ c ∈ s.containers, c.id < s.nextId

/-- Modelled from the spec: look up the runtime container for a given
(pod full name, container name) pair. -/
def findContainer (l : List RuntimeContainer) (pfn name : String) :
    Option RuntimeContainer :=
  l.find? (fun c => c.podFullName == pfn && c.ctrName == name)

/-- Modelled from the spec: kill a container by runtime id (the runtime
removes it from the listing). -/
def killContainer (s : NodeState) (cid : Nat) : NodeState :=
  { s with containers := s.containers.filter (fun c => c.id ≠ cid) }

/-- Modelled from the spec: create and start a container for the given pod
and name, recording the desired fingerprint in its composite name; returns
the new state and the new runtime id. -/
def createContainer (s : NodeState) (pfn name : String) (fp now : Nat) :
    NodeState × Nat :=
  (⟨⟨s.nextId, pfn, name, fp, now, true⟩ :: s.containers, s.nextId + 1⟩, s.nextId)

/- ===================== PodReconciler (syncPod) ===================== -/

/-- Modelled from the spec: the reserved name of the shared
network-namespace container. -/
def networkContainerName : String := "net"

/-- Modelled from the spec: the fixed minimal pause-image spec of the
network container. -/
def networkContainerSpec : ContainerSpec :=
  ⟨networkContainerName, "pause", [], [], [], [], false, false, none⟩

/-- Modelled from the spec: the per-container keep decision of a syncPod
pass.  A container is kept when its fingerprint matches (or is the legacy
0) and it is either a stopped run-once container, or its health evaluation
returns healthy or errors (an error is indeterminate, never grounds for a
kill).  Otherwise it is killed and recreated. -/
def keepDecision (probe : Prober) (now : Nat) (pfn : String)
    (c : ContainerSpec) (rc : RuntimeContainer) : Bool :=
  fingerprintMatches rc c &&
    ((!rc.running && c.restartNever) ||
      (match Evaluate probe now pfn c rc with
       | Except.ok Health.healthy => true
       | Except.error _ => true
       | Except.ok Health.unhealthy => false))

/-- Accumulator of one syncPod pass: current runtime state, kill and
create call counts, and the ids kept (spared from the final sweep). -/
structure PassAcc where
  state : NodeState
  kills : Nat
  creates : Nat
  keptIds : List Nat
deriving DecidableEq

/-- Modelled from the spec: syncPod step 4 for one declared container —
find a matching runtime container; keep it when `keepDecision` holds,
otherwise kill it and create a replacement; create one when none exists.
Image pull and creation are modelled as succeeding. -/
def syncOne (probe : Prober) (now : Nat) (pfn : String)
    (acc : PassAcc) (c : ContainerSpec) : PassAcc :=
  match findContainer acc.state.containers pfn c.name with
  | some rc =>
      if keepDecision probe now pfn c rc then
        { acc with keptIds := rc.id :: acc.keptIds }
      else
        let s1 := killContainer acc.state rc.id
        let sc := createContainer s1 pfn c.name (Fingerprint c) now
        ⟨sc.1, acc.kills + 1, acc.creates + 1, sc.2 :: acc.keptIds⟩
  | none =>
      let sc := createContainer acc.state pfn c.name (Fingerprint c) now
      ⟨sc.1, acc.kills, acc.creates + 1, sc.2 :: acc.keptIds⟩

/-- Modelled from the spec: syncPod step 1 — ensure the network container.
If present, return it; otherwise kill every other container of the pod,
then create and start a fresh network container.  Returns the new state,
kill and create counts, and the network container id. -/
def ensureNet (now : Nat) (pfn : String) (s : NodeState) :
    NodeState × Nat × Nat × Nat :=
  match findContainer s.containers pfn networkContainerName with
  | some rc => (s, 0, 0, rc.id)
  | none =>
      let victims := s.containers.filter (fun c => c.podFullName == pfn)
      let s1 : NodeState :=
        { s with containers := s.containers.filter (fun c => c.podFullName ≠ pfn) }
      let sc := createContainer s1 pfn networkContainerName
        (Fingerprint networkContainerSpec) now
      (sc.1, victims.length, 1, sc.2)

/-- Modelled from the spec: syncPod step 5 — kill every container of the
pod neither kept nor created during the pass.  Returns the swept state and
the number of kills. -/
def sweep (pfn : String) (kept : List Nat) (s : NodeState) : NodeState × Nat :=
  let keepIt := fun (c : RuntimeContainer) =>
    !(c.podFullName == pfn && !(kept.contains c.id))
  (⟨s.containers.filter keepIt, s.nextId⟩,
   (s.containers.filter (fun c => !(keepIt c))).length)

/-- Result of one syncPod pass: the new runtime state and the container
create and kill call counts the pass issued. -/
structure SyncResult where
  state : NodeState
  creates : Nat
  kills : Nat
deriving DecidableEq

/-- Modelled from the spec: the single-pod convergence algorithm `syncPod`
— ensure the network container, reconcile each declared container in
order, then sweep unrecognized containers of the pod.  Volume mounting and
image pulls are modelled as succeeding. -/
def syncPod (probe : Prober) (now : Nat) (pod : Pod) (s : NodeState) : SyncResult :=
  let pfn := podFullName pod
  let en := ensureNet now pfn s
  let acc := pod.containers.foldl (syncOne probe now pfn)
    ⟨en.1, en.2.1, en.2.2.1, [en.2.2.2]⟩
  let sw := sweep pfn acc.keptIds acc.state
  ⟨sw.1, acc.creates, acc.kills + sw.2⟩

/- ===================== ClusterSyncLoop (SyncPods) ===================== -/

/-- Modelled from the spec: the (pod full name, container name) pairs
implied by a desired pod list, including each pod's network container. -/
def desiredPairs (pods : List Pod) : List (String × String) :=
  pods.flatMap (fun p =>
    (podFullName p, networkContainerName) ::
      p.containers.map (fun c => (podFullName p, c.name)))

/-- Modelled from the spec: one SyncPods pass — dispatch a syncPod pass per
desired pod, then re-list and kill every container whose
(pod full name, container name) pair is not desired.  Returns the new
state and the number of kills of the final removal step. -/
def syncPods (probe : Prober) (now : Nat) (pods : List Pod) (s : NodeState) :
    NodeState × Nat :=
  let s1 := pods.foldl (fun st p => (syncPod probe now p st).state) s
  let pairs := desiredPairs pods
  let keepIt := fun (c : RuntimeContainer) => pairs.contains (c.podFullName, c.ctrName)
  (⟨s1.containers.filter keepIt, s1.nextId⟩,
   (s1.containers.filter (fun c => !(keepIt c))).length)

/- ===================== Build validation (from source) ================= -/

/-- Kind of a build validation error, from the kube error helpers used by
the source: field-required or field-invalid. -/
inductive VErrType where
  | required
  | invalid
deriving DecidableEq

/-- One build validation error: kind plus field path. -/
structure ValidationError where
  typ : VErrType
  field : String
deriving DecidableEq

/-- `ErrorList.Prefix` from the source: qualify each error field. -/
def prefixErrs (p : String) (l : List ValidationError) : List ValidationError :=
  l.map (fun e => ⟨e.typ, p ++ "." ++ e.field⟩)

/-- `GitSourceControl` from `pkg/build/api/v1beta1`. -/
structure GitSourceControl where
  uri : String
  ref : String
deriving DecidableEq

/-- `STIBuildInput` from `pkg/build/api/v1beta1`. -/
structure STIBuildInput where
  builderImage : String
deriving DecidableEq

/-- `BuildInput` from `pkg/build/api/v1beta1`; `SourceType` is a string,
with the constant `GitSource = "git"`. -/
structure BuildInput where
  sourceType : String
  gitSource : Option GitSourceControl
  imageTag : String
  registry : String
  stiInput : Option STIBuildInput
deriving DecidableEq

/-- `Build` from `pkg/build/api/v1beta1`, the fields validation reads. -/
structure Build where
  id : String
  input : BuildInput
deriving DecidableEq

/-- `validateGitSource` from `pkg/build/api/validation/validation.go`,
parameterized by the `isValidURL` predicate (`url.Parse` succeeding). -/
def validateGitSource (isValidURL : String → Bool)
    (input : Option GitSourceControl) : List ValidationError :=
  match input with
  | none => [⟨VErrType.required, "gitSource"⟩]
  | some g =>
      if g.uri.length = 0 then [⟨VErrType.required, "URI"⟩]
      else if !isValidURL g.uri then [⟨VErrType.invalid, "URI"⟩]
      else []

/-- `validateSTIBuild` from `pkg/build/api/validation/validation.go`. -/
def validateSTIBuild (sti : STIBuildInput) : List ValidationError :=
  if sti.builderImage.length = 0 then [⟨VErrType.required, "builderImage"⟩] else []

/-- `validateBuildInput` from `pkg/build/api/validation/validation.go`.
Line 35 of the source rebuilds the list from `errs.ErrorList{}` instead of
appending to the accumulator, discarding the sourceType error appended on
line 33; the second binding below mirrors that discard exactly. -/
def validateBuildInput (isValidURL : String → Bool) (input : BuildInput) :
    List ValidationError :=
  let allErrs : List ValidationError := []
  let allErrs :=
    if input.sourceType ≠ "git" then allErrs ++ [⟨VErrType.required, "sourceType"⟩]
    else allErrs
  let allErrs :=
    ([] : List ValidationError) ++
      prefixErrs "gitSource" (validateGitSource isValidURL input.gitSource)
  let allErrs :=
    if input.imageTag.length = 0 then allErrs ++ [⟨VErrType.required, "imageTag"⟩]
    else allErrs
  let allErrs :=
    match input.stiInput with
    | some sti => allErrs ++ prefixErrs "stiBuild" (validateSTIBuild sti)
    | none => allErrs
  allErrs

/-- `ValidateBuild` from `pkg/build/api/validation/validation.go`. -/
def ValidateBuild (isValidURL : String → Bool) (b : Build) : List ValidationError :=
  let allErrs : List ValidationError := []
  let allErrs :=
    if b.id.length = 0 then allErrs ++ [⟨VErrType.required, "id"⟩] else allErrs
  allErrs ++ prefixErrs "input" (validateBuildInput isValidURL b.input)

/- ===================== Webhook controller (from source) =============== -/

/-- `BuildConfig` from `pkg/build/api/v1beta1`, the fields the webhook
controller reads: the request secret and the desired build input. -/
structure BuildConfig where
  id : String
  secret : String
  desiredInput : BuildInput
deriving DecidableEq

/-- `urlVars` from the webhook controller: parsed URL parts. -/
structure UrlVars where
  buildId : String
  secret : String
  plugin : String
  path : String
deriving DecidableEq

/-- `strings.Trim(path, "/")` as used by `splitPath`. -/
def trimSlashes (s : String) : String :=
  String.mk (((s.toList.dropWhile (fun c => c == '/')).reverse.dropWhile
    (fun c => c == '/')).reverse)

/-- `strings.Split(s, "/")` on the character list: split at every slash,
keeping empty segments, as Go does. -/
def splitSlash : List Char → List Char → List String
  | [], acc => [String.mk acc.reverse]
  | c :: rest, acc =>
      if c == '/' then String.mk acc.reverse :: splitSlash rest []
      else splitSlash rest (c :: acc)

/-- `splitPath` from the webhook controller: trim slashes, return the empty
list for the empty path, otherwise split on every slash (empty interior
segments included, as in Go's `strings.Split`). -/
def splitPath (path : String) : List String :=
  let p := trimSlashes path
  if p = "" then [] else splitSlash p.toList []

/-- `parseUrl` from the webhook controller: fewer than three parts is an
error; otherwise the first three parts are buildId, secret and plugin, the
rest rejoined as the plugin path. -/
def parseUrl (url : String) : Except String UrlVars :=
  match splitPath url with
  | a :: b :: c :: rest => Except.ok ⟨a, b, c, String.intercalate "/" rest⟩
  | _ => Except.error ("Unexpected URL " ++ url ++ "!")

/-- The external collaborators of the webhook controller: the build-config
lookup, the plugin table (each plugin an extractor), and the build-creation
client call. -/
structure WebhookEnv where
  getBuildConfig : String → Except String BuildConfig
  plugins : String → Option (BuildConfig → String → Except String (Option Build))
  createBuild : Build → Except String Build

/-- Observable outcome of one webhook request: the HTTP status written and
how many `Extract` and `CreateBuild` calls were made. -/
structure HttpResult where
  status : Nat
  extractCalls : Nat
  createCalls : Nat
deriving DecidableEq

/-- `controller.ServeHTTP` from the webhook controller: 404 on an
unparsable URL or unknown plugin, 400 on a config-lookup failure, secret
mismatch, extract failure or create failure, 200 otherwise; `Extract` and
`CreateBuild` are reached only past the secret check. -/
def serveHTTP (env : WebhookEnv) (path : String) : HttpResult :=
  match parseUrl path with
  | Except.error _ => ⟨404, 0, 0⟩
  | Except.ok uv =>
      match env.getBuildConfig uv.buildId with
      | Except.error _ => ⟨400, 0, 0⟩
      | Except.ok cfg =>
          if uv.secret ≠ cfg.secret then ⟨400, 0, 0⟩
          else
            match env.plugins uv.plugin with
            | none => ⟨404, 0, 0⟩
            | some ext =>
                match ext cfg uv.path with
                | Except.error _ => ⟨400, 1, 0⟩
                | Except.ok ob =>
                    let build := ob.getD ⟨"", cfg.desiredInput⟩
                    match env.createBuild build with
                    | Except.error _ => ⟨400, 1, 1⟩
                    | Except.ok _ => ⟨200, 1, 1⟩

/-- Follows the claim wording, not the source: the non-empty segments of a
request path split on slashes.  Used only to compare the claim against the
source behavior. -/
def specNonEmptySegments (path : String) : List String :=
  (splitSlash path.toList []).filter (fun s => s ≠ "")

/- ============== ImageRepository REST storage (from source) ============ -/

/-- `ImageRepository` from `pkg/image/api`, the fields `REST.Create`
touches; `tags = none` models a nil Go map, `some l` a non-nil one. -/
structure ImageRepository where
  id : String
  dockerImageRepository : String
  tags : Option (List (String × String))
  creationTimestamp : Nat
deriving DecidableEq

/-- A value handed to `REST.Create`: either an `*api.ImageRepository` or
some other object (the failed type assertion branch). -/
inductive RESTObj where
  | repo (r : ImageRepository)
  | other (descr : String)
deriving DecidableEq

/-- A lowercase hex digit. -/
def hexDigit (n : Nat) : Char :=
  if n < 10 then Char.ofNat (48 + n) else Char.ofNat (97 + (n - 10))

/-- Two lowercase hex digits of one byte. -/
def hexByte (b : Nat) : String :=
  String.mk [hexDigit (b / 16 % 16), hexDigit (b % 16)]

/-- Hex encoding of a byte list. -/
def hexOfBytes (l : List Nat) : String :=
  String.join (l.map hexByte)

/-- `uuid.NewUUID().String()` from the go-uuid library: sixteen random
bytes formatted as the dashed 8-4-4-4-12 hex form; modelled over an
explicit random byte list. -/
def uuidString (bytes : List Nat) : String :=
  let b := bytes ++ List.replicate 16 0
  hexOfBytes (b.take 4) ++ "-" ++ hexOfBytes ((b.drop 4).take 2) ++ "-" ++
    hexOfBytes ((b.drop 6).take 2) ++ "-" ++ hexOfBytes ((b.drop 8).take 2) ++
    "-" ++ hexOfBytes ((b.drop 10).take 6)

/-- `REST.Create` from `pkg/image/registry/imagerepository/rest.go`: a
non-repository argument fails the type assertion and returns an error with
the registry untouched; a repository gets a fresh UUID when its id is
empty, a fresh empty tag map when its map is nil, and the current time as
creation timestamp, and is then handed to the registry (the body of
`MakeAsync`, modelled as the appended write).  The random bytes and clock
are explicit parameters. -/
def restCreate (rng : List Nat) (now : Nat) (reg : List ImageRepository)
    (obj : RESTObj) : Except String ImageRepository × List ImageRepository :=
  match obj with
  | RESTObj.other d => (Except.error ("not an image repository: " ++ d), reg)
  | RESTObj.repo r =>
      let r1 := if r.id.length = 0 then { r with id := uuidString rng } else r
      let r2 := if r1.tags = none then { r1 with tags := some [] } else r1
      let r3 := { r2 with creationTimestamp := now }
      (Except.ok r3, reg ++ [r3])

/- ============== Verification-level invariants ============ -/

/-- Invariant of a syncPod pass after the network container is ensured and
the specs in `done` are processed: the state is well-formed, the network
container is findable with the recorded id and spared from the sweep, every
processed spec resolves to a stable kept container, and every spared id is
the network container or such a resolved container. -/
def PassInv (probe : Prober) (now : Nat) (pfn : String) (netId : Nat)
    (done : List ContainerSpec) (acc : PassAcc) : Prop :=
  WF acc.state ∧
  (∃ net, findContainer acc.state.containers pfn networkContainerName = some net ∧
    net.id = netId) ∧
  netId ∈ acc.keptIds ∧
  (∀ c ∈ done, ∃ rc, findContainer acc.state.containers pfn c.name = some rc ∧
    keepDecision probe now pfn c rc = true ∧ rc.id ∈ acc.keptIds) ∧
  (∀ i ∈ acc.keptIds, i = netId ∨ ∃ c ∈ done, ∃ rc,
    findContainer acc.state.containers pfn c.name = some rc ∧ rc.id = i)

/- ===================== Helper lemmas ===================== -/

theorem hashCombine_lt (l : List Nat) : hashCombine l < 4294967296 := by
  have key : ∀ (l : List Nat) (a : Nat), a < 4294967296 →
      List.foldl (fun h x => (h * 131 + x) % 4294967296) a l < 4294967296 := by
    intro l
    induction l with
    | nil => intro a ha; simpa using ha
    | cons x t ih =>
        intro a ha
        simp only [List.foldl_cons]
        exact ih _ (Nat.mod_lt _ (by norm_num))
  exact key l 17 (by norm_num)

theorem find_filter_keep {α : Type} (p q : α → Bool) (l : List α) (rc : α)
    (h : l.find? p = some rc) (hq : q rc = true) :
    (l.filter q).find? p = some rc := by
  induction l with
  | nil => simp at h
  | cons a t ih =>
      by_cases hpa : p a = true
      · rw [List.find?_cons_of_pos _ hpa] at h
        injection h with h
        subst h
        rw [List.filter_cons_of_pos hq, List.find?_cons_of_pos _ hpa]
      · rw [List.find?_cons_of_neg _ hpa] at h
        by_cases hqa : q a = true
        · rw [List.filter_cons_of_pos hqa, List.find?_cons_of_neg _ hpa]
          exact ih h
        · rw [List.filter_cons_of_neg (by simpa using hqa)]
          exact ih h

theorem find_filter_skip {α : Type} (p q : α → Bool) (l : List α)
    (hrem : ∀ x ∈ l, q x = false → p x = false) :
    (l.filter q).find? p = l.find? p := by
  induction l with
  | nil => simp
  | cons a t ih =>
      have ihyp : ∀ x ∈ t, q x = false → p x = false := by
        intro x hx; exact hrem x (List.mem_cons_of_mem _ hx)
      by_cases hqa : q a = true
      · rw [List.filter_cons_of_pos hqa]
        by_cases hpa : p a = true
        · rw [List.find?_cons_of_pos _ hpa, List.find?_cons_of_pos _ hpa]
        · rw [List.find?_cons_of_neg _ hpa, List.find?_cons_of_neg _ hpa]
          exact ih ihyp
      · have hqa' : q a = false := by revert hqa; cases q a <;> simp
        have hpa : p a = false := hrem a (List.mem_cons_self _ _) hqa'
        rw [List.filter_cons_of_neg (by simp [hqa']),
          List.find?_cons_of_neg _ (by simp [hpa])]
        exact ih ihyp

theorem id_inj {l : List RuntimeContainer}
    (h : (l.map (fun c => c.id)).Nodup) {x y : RuntimeContainer}
    (hx : x ∈ l) (hy : y ∈ l) (hid : x.id = y.id) : x = y :=
  List.inj_on_of_nodup_map h hx hy hid

theorem wf_filter (s : NodeState) (q : RuntimeContainer → Bool) (h : WF s) :
    WF ⟨s.containers.filter q, s.nextId⟩ := by
  constructor
  · exact List.Nodup.sublist (List.Sublist.map _ (List.filter_sublist _)) h.1
  · intro c hc
    exact h.2 c (List.mem_of_mem_filter hc)

theorem wf_kill (s : NodeState) (cid : Nat) (h : WF s) : WF (killContainer s cid) :=
  wf_filter s _ h

theorem wf_create (s : NodeState) (pfn name : String) (fp now : Nat) (h : WF s) :
    WF (createContainer s pfn name fp now).1 := by
  constructor
  · refine List.Nodup.cons ?_ h.1
    intro hmem
    rcases List.mem_map.mp hmem with ⟨c, hc, hcid⟩
    exact absurd hcid (Nat.ne_of_lt (h.2 c hc))
  · intro c hc
    rcases List.mem_cons.mp hc with hc | hc
    · subst hc; exact Nat.lt_succ_self _
    · exact Nat.lt_succ_of_lt (h.2 c hc)

theorem keep_new (probe : Prober) (now : Nat) (pfn : String)
    (c : ContainerSpec) (nid : Nat)
    (Hprobe : ∀ pfn' c' rc', probe pfn' c' rc' ≠ Except.ok Health.unhealthy) :
    keepDecision probe now pfn c ⟨nid, pfn, c.name, Fingerprint c, now, true⟩ = true := by
  unfold keepDecision fingerprintMatches Evaluate
  simp only [Bool.and_eq_true, Bool.or_eq_true]
  constructor
  · right; simp
  · right
    cases hlp : c.livenessProbe with
    | none => simp
    | some lp =>
        simp only
        by_cases hd : now < now + lp.initialDelaySeconds
        · simp [hd]
        · simp only [hd, if_false]
          cases hp : probe pfn c ⟨nid, pfn, c.name, Fingerprint c, now, true⟩ with
          | error e => simp
          | ok v =>
              cases v with
              | healthy => simp
              | unhealthy => exact absurd hp (Hprobe _ _ _)

/- ===================== Claim theorems ===================== -/

/-- C5: `HealthEvaluator.Evaluate` — with no liveness probe the result is
healthy iff the runtime reports the container running; with a probe still
within `InitialDelaySeconds` of creation the result is always healthy;
otherwise the result is the configured probe's, and a probe error is
returned as an error rather than mapped to unhealthy. -/
theorem evaluate_spec (probe : Prober) (now : Nat) (pfn : String)
    (c : ContainerSpec) (rc : RuntimeContainer) :
    (c.livenessProbe = none →
      (Evaluate probe now pfn c rc = Except.ok Health.healthy ↔ rc.running = true)) ∧
    (∀ lp, c.livenessProbe = some lp → now < rc.createdAt + lp.initialDelaySeconds →
      Evaluate probe now pfn c rc = Except.ok Health.healthy) ∧
    (∀ lp, c.livenessProbe = some lp → ¬ now < rc.createdAt + lp.initialDelaySeconds →
      Evaluate probe now pfn c rc = probe pfn c rc) ∧
    (∀ lp e, c.livenessProbe = some lp → ¬ now < rc.createdAt + lp.initialDelaySeconds →
      probe pfn c rc = Except.error e →
      Evaluate probe now pfn c rc = Except.error e) := by
  refine ⟨?_, ?_, ?_, ?_⟩
  · intro h
    simp only [Evaluate, h]
    cases hr : rc.running <;> simp
  · intro lp h hd
    simp [Evaluate, h, hd]
  · intro lp h hd
    simp [Evaluate, h, hd]
  · intro lp e h hd hp
    simp [Evaluate, h, hd, hp]

/-- C5 witness: a running container with no probe evaluates healthy. -/
theorem evaluate_spec_witness :
    Evaluate (fun _ _ _ => Except.error "checker down") 5 "p.test"
      ⟨"a", "img", [], [], [], [], false, false, none⟩
      ⟨1, "p.test", "a", 0, 0, true⟩ = Except.ok Health.healthy :=
  ((evaluate_spec (fun _ _ _ => Except.error "checker down") 5 "p.test"
    ⟨"a", "img", [], [], [], [], false, false, none⟩
    ⟨1, "p.test", "a", 0, 0, true⟩).1 rfl).mpr rfl

/-- C6: `Fingerprint` is a pure deterministic function into the 32-bit
range, and the reconciler's match predicate treats a recorded fingerprint
of 0 as matching the desired spec. -/
theorem fingerprint_spec :
    (∀ c1 c2 : ContainerSpec, c1 = c2 → Fingerprint c1 = Fingerprint c2) ∧
    (∀ c : ContainerSpec, Fingerprint c < 4294967296) ∧
    (∀ (rc : RuntimeContainer) (c : ContainerSpec), rc.fingerprint = 0 →
      fingerprintMatches rc c = true) := by
  refine ⟨fun c1 c2 h => by rw [h], fun c => hashCombine_lt _, fun rc c h => ?_⟩
  simp [fingerprintMatches, h]

/-- C6 witness: a concrete spec fingerprints below 2^32, and a concrete
container with recorded fingerprint 0 matches it. -/
theorem fingerprint_spec_witness :
    Fingerprint ⟨"a", "img", ["run"], [], [], [], false, false, none⟩ < 4294967296 ∧
    fingerprintMatches ⟨7, "p.test", "a", 0, 3, true⟩
      ⟨"a", "img", ["run"], [], [], [], false, false, none⟩ = true :=
  ⟨fingerprint_spec.2.1 ⟨"a", "img", ["run"], [], [], [], false, false, none⟩,
   fingerprint_spec.2.2 ⟨7, "p.test", "a", 0, 3, true⟩
     ⟨"a", "img", ["run"], [], [], [], false, false, none⟩ rfl⟩

/-- C7: one SyncPods pass with zero desired pods kills every runtime
container on the node and ends with zero containers remaining. -/
theorem syncPods_empty_desired (probe : Prober) (now : Nat) (s : NodeState) :
    (syncPods probe now [] s).1.containers = [] ∧
    (syncPods probe now [] s).2 = s.containers.length := by
  constructor
  · simp [syncPods, desiredPairs]
  · simp [syncPods, desiredPairs]

theorem poolInv_step (sf : PoolState × (String → Nat)) (e : PoolEvent)
    (h : PoolInv sf) : PoolInv (traceStep sf e) := by
  obtain ⟨hnd, hfl⟩ := h
  cases e with
  | runCall k =>
      by_cases hmem : k ∈ sf.1.busy
      · constructor
        · simpa [traceStep, applyEvent, hmem] using hnd
        · intro k'
          simpa [traceStep, applyEvent, hmem] using hfl k'
      · constructor
        · have hcons : (k :: sf.1.busy).Nodup := List.Nodup.cons hmem hnd
          simpa [traceStep, applyEvent, hmem] using hcons
        · intro k'
          by_cases hk : k' = k
          · subst hk
            have h0 : sf.2 k' = 0 := by rw [hfl k']; simp [hmem]
            simp [traceStep, applyEvent, hmem, h0]
          · have hk' := hfl k'
            simp [traceStep, applyEvent, hmem, hk, hk', List.mem_cons]
  | finish k p =>
      constructor
      · simp only [traceStep, applyEvent]
        exact List.Nodup.erase _ hnd
      · intro k'
        simp only [traceStep, applyEvent]
        by_cases hk : k' = k
        · subst hk
          have : k' ∉ sf.1.busy.erase k' := List.Nodup.not_mem_erase hnd
          simp only [if_pos rfl, this, if_false]
          rw [hfl k']
          by_cases hm : k' ∈ sf.1.busy <;> simp [hm]
        · have : k' ∈ sf.1.busy.erase k ↔ k' ∈ sf.1.busy := by
            rw [List.Nodup.mem_erase_iff hnd]
            simp [hk]
          simp only [hk, if_false, this]
          exact hfl k'

/-- C2: the pod worker pool — a `Run` call for a busy key is a silent
no-op on the pool state that starts nothing; a call for a free key always
starts the action regardless of other keys; along any event trace from a
consistent start the pool keeps at most one action in flight per key; and
completion of an action, panicking or not, always clears the key's busy
mark. -/
theorem podWorkerPool_spec :
    (∀ (s : PoolState) (k : String), s.busy.contains k = true →
      applyEvent s (PoolEvent.runCall k) = (s, false)) ∧
    (∀ (s : PoolState) (k : String), s.busy.contains k = false →
      (applyEvent s (PoolEvent.runCall k)).2 = true) ∧
    (∀ (tr : List PoolEvent) (sf : PoolState × (String → Nat)), PoolInv sf →
      PoolInv (tr.foldl traceStep sf) ∧ ∀ k, (tr.foldl traceStep sf).2 k ≤ 1) ∧
    (∀ (s : PoolState) (k : String) (p : Bool), s.busy.Nodup →
      (applyEvent s (PoolEvent.finish k p)).1.busy.contains k = false) := by
  refine ⟨?_, ?_, ?_, ?_⟩
  · intro s k h
    have hm : k ∈ s.busy := by simpa using h
    simp [applyEvent, hm]
  · intro s k h
    have hm : k ∉ s.busy := by simpa using h
    simp [applyEvent, hm]
  · intro tr
    induction tr with
    | nil =>
        intro sf h
        refine ⟨h, fun k => ?_⟩
        simp only [List.foldl_nil]
        rw [h.2 k]
        by_cases hm : k ∈ sf.1.busy <;> simp [hm]
    | cons e t ih =>
        intro sf h
        simp only [List.foldl_cons]
        exact ih (traceStep sf e) (poolInv_step sf e h)
  · intro s k p h
    simp only [applyEvent]
    have : k ∉ s.busy.erase k := List.Nodup.not_mem_erase h
    simpa using this

/-- C2 witness: a call for the busy key "a" is a no-op, a call for the
free key "b" starts while "a" is busy, the invariant bounds in-flight
actions after a concrete trace, and a panicked finish clears "a". -/
theorem podWorkerPool_spec_witness :
    applyEvent ⟨["a"]⟩ (PoolEvent.runCall "a") = (⟨["a"]⟩, false) ∧
    (applyEvent ⟨["a"]⟩ (PoolEvent.runCall "b")).2 = true ∧
    (applyEvent ⟨["a"]⟩ (PoolEvent.finish "a" true)).1.busy.contains "a" = false := by
  refine ⟨podWorkerPool_spec.1 ⟨["a"]⟩ "a" (by decide),
    podWorkerPool_spec.2.1 ⟨["a"]⟩ "b" (by decide),
    podWorkerPool_spec.2.2.2 ⟨["a"]⟩ "a" true (by decide)⟩

theorem keptFlags_length (pods : List Pod) (claimed : List (Nat × String)) :
    (keptFlags pods claimed).length = pods.length := by
  induction pods generalizing claimed with
  | nil => simp [keptFlags]
  | cons p rest ih =>
      simp only [keptFlags]
      by_cases h : (podPortClaims p).any (fun x => claimed.contains x) = true
      · rw [if_pos h]
        simp [ih]
      · rw [if_neg h]
        simp [ih]

theorem keptFlags_mono (x : Nat × String) :
    ∀ (l1 : List Pod) (claimed : List (Nat × String)) (p : Pod) (l2 : List Pod),
    x ∈ claimed → x ∈ podPortClaims p →
    (keptFlags (l1 ++ p :: l2) claimed).getD l1.length true = false := by
  intro l1
  induction l1 with
  | nil =>
      intro claimed p l2 hx hclaim
      have hany : (podPortClaims p).any (fun y => claimed.contains y) = true :=
        List.any_eq_true.mpr ⟨x, hclaim, by simpa using hx⟩
      simp only [List.nil_append, keptFlags, List.length_nil]
      rw [if_pos hany]
      simp
  | cons a t ih =>
      intro claimed p l2 hx hclaim
      simp only [List.cons_append, keptFlags, List.length_cons]
      by_cases h : (podPortClaims a).any (fun y => claimed.contains y) = true
      · rw [if_pos h, List.getD_cons_succ]
        exact ih claimed p l2 hx hclaim
      · rw [if_neg h, List.getD_cons_succ]
        exact ih (claimed ++ podPortClaims a) p l2 (List.mem_append_left _ hx) hclaim

/-- C3 (amended): in a SET event, whenever two desired pods claim a common
(host port, protocol) pair, if the earlier pod is retained by the
host-port filter then the later pod is dropped; with a payload of exactly
the two conflicting pods the later is dropped and the earlier retained.
Filtering is a total function of the payload, never fatal to the event. -/
theorem hostPortConflict_filtering :
    (∀ (l1 : List Pod) (p : Pod) (l2 : List Pod) (q : Pod) (l3 : List Pod),
      sharesPort p q = true →
      (keptFlags (l1 ++ p :: l2 ++ q :: l3) []).getD l1.length true = true →
      (keptFlags (l1 ++ p :: l2 ++ q :: l3) []).getD
        (l1.length + 1 + l2.length) true = false) ∧
    (∀ p q : Pod, sharesPort p q = true → handleSet [p, q] = [p]) := by
  constructor
  · have key : ∀ (l1 : List Pod) (claimed : List (Nat × String)) (p : Pod)
        (l2 : List Pod) (q : Pod) (l3 : List Pod),
        sharesPort p q = true →
        (keptFlags (l1 ++ p :: l2 ++ q :: l3) claimed).getD l1.length true = true →
        (keptFlags (l1 ++ p :: l2 ++ q :: l3) claimed).getD
          (l1.length + 1 + l2.length) true = false := by
      intro l1
      induction l1 with
      | nil =>
          intro claimed p l2 q l3 hpq hkept
          rcases List.any_eq_true.mp hpq with ⟨x, hxp, hxq⟩
          have hxq' : x ∈ podPortClaims q := by simpa using hxq
          simp only [List.nil_append, keptFlags, List.length_nil] at hkept ⊢
          by_cases h : (podPortClaims p).any (fun y => claimed.contains y) = true
          · rw [if_pos h] at hkept
            simp at hkept
          · rw [if_neg h] at hkept ⊢
            have : (0 : Nat) + 1 + l2.length = l2.length + 1 := by omega
            rw [this, List.getD_cons_succ]
            exact keptFlags_mono x l2 (claimed ++ podPortClaims p) q l3
              (List.mem_append_right _ hxp) hxq'
      | cons a t ih =>
          intro claimed p l2 q l3 hpq hkept
          simp only [List.cons_append, keptFlags, List.length_cons] at hkept ⊢
          have harith : t.length + 1 + 1 + l2.length = (t.length + 1 + l2.length) + 1 := by
            omega
          by_cases h : (podPortClaims a).any (fun y => claimed.contains y) = true
          · rw [if_pos h, List.getD_cons_succ] at hkept
            rw [if_pos h, harith, List.getD_cons_succ]
            exact ih claimed p l2 q l3 hpq hkept
          · rw [if_neg h, List.getD_cons_succ] at hkept
            rw [if_neg h, harith, List.getD_cons_succ]
            exact ih (claimed ++ podPortClaims a) p l2 q l3 hpq hkept
    exact fun l1 => key l1 []
  · intro p q hpq
    rcases List.any_eq_true.mp hpq with ⟨x, hxp, hxq⟩
    have hq : (podPortClaims q).any
        (fun y => (([] : List (Nat × String)) ++ podPortClaims p).contains y) = true := by
      refine List.any_eq_true.mpr ⟨x, ?_, ?_⟩
      · simpa using hxq
      · simpa using hxp
    have hp : (podPortClaims p).any
        (fun y => (([] : List (Nat × String))).contains y) = false := by
      simp
    simp only [handleSet, filterHostPortConflicts]
    rw [if_neg (by simp [hp]), if_pos hq]

/-- C3 counterexample: three pods where the first claims host port 80, the
second claims 80 and 443, the third claims 443.  The second and third
conflict, yet the filter retains the later (third) pod and drops the
earlier (second) one, refuting the claim that for every conflicting pair
the later pod is dropped and the earlier retained. -/
theorem hostPortConflict_counterexample :
    sharesPort ⟨"b", "ns", [⟨"cb", "i", [], [], [⟨1, some 80, "tcp"⟩,
        ⟨2, some 443, "tcp"⟩], [], false, false, none⟩]⟩
      ⟨"c", "ns", [⟨"cc", "i", [], [], [⟨3, some 443, "tcp"⟩], [],
        false, false, none⟩]⟩ = true ∧
    (⟨"b", "ns", [⟨"cb", "i", [], [], [⟨1, some 80, "tcp"⟩,
        ⟨2, some 443, "tcp"⟩], [], false, false, none⟩]⟩ : Pod) ∉
      handleSet [⟨"a", "ns", [⟨"ca", "i", [], [], [⟨1, some 80, "tcp"⟩], [],
        false, false, none⟩]⟩,
        ⟨"b", "ns", [⟨"cb", "i", [], [], [⟨1, some 80, "tcp"⟩,
          ⟨2, some 443, "tcp"⟩], [], false, false, none⟩]⟩,
        ⟨"c", "ns", [⟨"cc", "i", [], [], [⟨3, some 443, "tcp"⟩], [],
          false, false, none⟩]⟩] ∧
    (⟨"c", "ns", [⟨"cc", "i", [], [], [⟨3, some 443, "tcp"⟩], [],
        false, false, none⟩]⟩ : Pod) ∈
      handleSet [⟨"a", "ns", [⟨"ca", "i", [], [], [⟨1, some 80, "tcp"⟩], [],
        false, false, none⟩]⟩,
        ⟨"b", "ns", [⟨"cb", "i", [], [], [⟨1, some 80, "tcp"⟩,
          ⟨2, some 443, "tcp"⟩], [], false, false, none⟩]⟩,
        ⟨"c", "ns", [⟨"cc", "i", [], [], [⟨3, some 443, "tcp"⟩], [],
          false, false, none⟩]⟩] := by
  refine ⟨by decide, by decide, by decide⟩

/-- C3 witness: with exactly two conflicting pods the later is dropped and
the earlier retained. -/
theorem hostPortConflict_filtering_witness :
    handleSet [⟨"a", "ns", [⟨"ca", "i", [], [], [⟨1, some 80, "tcp"⟩], [],
        false, false, none⟩]⟩,
      ⟨"b", "ns", [⟨"cb", "i", [], [], [⟨1, some 80, "tcp"⟩], [],
        false, false, none⟩]⟩] =
    [⟨"a", "ns", [⟨"ca", "i", [], [], [⟨1, some 80, "tcp"⟩], [],
        false, false, none⟩]⟩] :=
  hostPortConflict_filtering.2 _ _ (by decide)

/-- C8: with a parseable non-empty git URI, a non-empty image tag and no
STI input, `validateBuildInput` returns no errors regardless of the
source type — the sourceType error appended on line 33 of the source is
discarded by the list rebuild on line 35 and never appears in any returned
list — so `ValidateBuild` accepts any such build with a non-empty id. -/
theorem validateBuild_sourceType_dropped (isValidURL : String → Bool)
    (input : BuildInput) (b : Build) :
    (∀ g, input.gitSource = some g → g.uri.length ≠ 0 → isValidURL g.uri = true →
      input.imageTag.length ≠ 0 → input.stiInput = none →
      validateBuildInput isValidURL input = []) ∧
    ((⟨VErrType.required, "sourceType"⟩ : ValidationError) ∉
      validateBuildInput isValidURL input) ∧
    (b.id.length ≠ 0 → ∀ g, b.input.gitSource = some g → g.uri.length ≠ 0 →
      isValidURL g.uri = true → b.input.imageTag.length ≠ 0 →
      b.input.stiInput = none → ValidateBuild isValidURL b = []) := by
  have inner : ∀ (i : BuildInput) g, i.gitSource = some g → g.uri.length ≠ 0 →
      isValidURL g.uri = true → i.imageTag.length ≠ 0 → i.stiInput = none →
      validateBuildInput isValidURL i = [] := by
    intro i g hg hu hv ht hs
    simp only [validateBuildInput, hg, hs, validateGitSource]
    rw [if_neg hu]
    simp [hv, prefixErrs, ht]
  refine ⟨fun g hg hu hv ht hs => inner input g hg hu hv ht hs, ?_, ?_⟩
  · intro hmem
    simp only [validateBuildInput] at hmem
    rcases hgs : input.gitSource with _ | g <;>
      rcases hsti : input.stiInput with _ | sti <;>
        simp only [hgs, hsti, validateGitSource, validateSTIBuild, prefixErrs] at hmem <;>
          split_ifs at hmem <;> simp_all
  · intro hid g hg hu hv ht hs
    simp only [ValidateBuild]
    rw [inner b.input g hg hu hv ht hs]
    simp [hid, prefixErrs]

/-- C8 witness: a build input with source type "svn" but a well-formed git
source, image tag and no STI input validates cleanly, and the whole build
with a non-empty id is accepted. -/
theorem validateBuild_sourceType_dropped_witness :
    validateBuildInput (fun _ => true)
      ⟨"svn", some ⟨"http://x/y", ""⟩, "t", "", none⟩ = [] ∧
    ValidateBuild (fun _ => true)
      ⟨"b1", ⟨"svn", some ⟨"http://x/y", ""⟩, "t", "", none⟩⟩ = [] := by
  refine ⟨(validateBuild_sourceType_dropped (fun _ => true)
      ⟨"svn", some ⟨"http://x/y", ""⟩, "t", "", none⟩
      ⟨"b1", ⟨"svn", some ⟨"http://x/y", ""⟩, "t", "", none⟩⟩).1
      ⟨"http://x/y", ""⟩ rfl (by decide) rfl (by decide) rfl,
    (validateBuild_sourceType_dropped (fun _ => true)
      ⟨"svn", some ⟨"http://x/y", ""⟩, "t", "", none⟩
      ⟨"b1", ⟨"svn", some ⟨"http://x/y", ""⟩, "t", "", none⟩⟩).2.2
      (by decide) ⟨"http://x/y", ""⟩ rfl (by decide) rfl (by decide) rfl⟩

theorem uuidString_length_pos (bytes : List Nat) : 0 < (uuidString bytes).length := by
  have hd : ("-" : String).length = 1 := rfl
  simp only [uuidString, String.length_append, hd]
  omega

/-- C10: `REST.Create` rejects any non-ImageRepository value with an error
and without touching the registry; for an ImageRepository it succeeds,
and the value handed to the registry carries a non-empty id (a fresh UUID
when the input id was empty, the input id otherwise), a non-nil tag map
(an empty one when the input map was nil), and the current time as its
creation timestamp. -/
theorem restCreate_spec (rng : List Nat) (now : Nat) (reg : List ImageRepository) :
    (∀ d, restCreate rng now reg (RESTObj.other d) =
      (Except.error ("not an image repository: " ++ d), reg)) ∧
    (∀ r, ∃ r3, restCreate rng now reg (RESTObj.repo r) =
        (Except.ok r3, reg ++ [r3]) ∧
      r3.id.length ≠ 0 ∧ r3.tags ≠ none ∧ r3.creationTimestamp = now ∧
      (r.id.length = 0 → r3.id = uuidString rng) ∧
      (r.id.length ≠ 0 → r3.id = r.id) ∧
      (r.tags = none → r3.tags = some [])) := by
  refine ⟨fun d => rfl, fun r => ?_⟩
  by_cases hid : r.id.length = 0 <;> by_cases htg : r.tags = none
  · refine ⟨⟨uuidString rng, r.dockerImageRepository, some [], now⟩, ?_,
      Nat.pos_iff_ne_zero.mp (uuidString_length_pos rng), by simp, rfl,
      fun _ => rfl, fun h => absurd hid h, fun _ => rfl⟩
    simp [restCreate, hid, htg]
  · refine ⟨⟨uuidString rng, r.dockerImageRepository, r.tags, now⟩, ?_,
      Nat.pos_iff_ne_zero.mp (uuidString_length_pos rng), htg, rfl,
      fun _ => rfl, fun h => absurd hid h, fun h => absurd h htg⟩
    simp [restCreate, hid, htg]
  · refine ⟨⟨r.id, r.dockerImageRepository, some [], now⟩, ?_, hid, by simp, rfl,
      fun h => absurd h hid, fun _ => rfl, fun _ => rfl⟩
    simp [restCreate, hid, htg]
  · refine ⟨⟨r.id, r.dockerImageRepository, r.tags, now⟩, ?_, hid, htg, rfl,
      fun h => absurd h hid, fun _ => rfl, fun h => absurd h htg⟩
    simp [restCreate, hid, htg]

/-- C10 witness: a non-repository argument is rejected with the registry
untouched, and a repository with empty id and nil tags is written with a
fresh non-empty id. -/
theorem restCreate_spec_witness :
    restCreate [] 9 [] (RESTObj.other "bad") =
      (Except.error "not an image repository: bad", []) ∧
    (restCreate [] 9 [] (RESTObj.repo ⟨"", "d", none, 0⟩)).2 ≠ [] := by
  refine ⟨(restCreate_spec [] 9 []).1 "bad", ?_⟩
  obtain ⟨r3, heq, _⟩ := (restCreate_spec [] 9 []).2 ⟨"", "d", none, 0⟩
  rw [heq]
  simp

/-- C9 (amended): a webhook request whose secret segment differs from the
referenced build config's secret is answered 400 with no `Extract` and no
`CreateBuild` call; a request whose path yields fewer than three segments
under the controller's own splitting (trim slashes, then split on every
slash, empty interior segments counted) is answered 404 with no calls. -/
theorem serveHTTP_secret_and_short_path (env : WebhookEnv) (path : String) :
    (∀ uv cfg, parseUrl path = Except.ok uv →
      env.getBuildConfig uv.buildId = Except.ok cfg → uv.secret ≠ cfg.secret →
      serveHTTP env path = ⟨400, 0, 0⟩) ∧
    ((splitPath path).length < 3 → serveHTTP env path = ⟨404, 0, 0⟩) := by
  constructor
  · intro uv cfg hp hc hs
    simp [serveHTTP, hp, hc, hs]
  · intro hlen
    have herr : ∃ e, parseUrl path = Except.error e := by
      unfold parseUrl
      rcases h : splitPath path with _ | ⟨a, _ | ⟨b, _ | ⟨c, rest⟩⟩⟩
      · exact ⟨_, rfl⟩
      · exact ⟨_, rfl⟩
      · exact ⟨_, rfl⟩
      · rw [h] at hlen
        simp at hlen
        omega
    obtain ⟨e, he⟩ := herr
    simp [serveHTTP, he]

/-- C9 counterexample: the path "/a//b" has only two non-empty segments,
yet the controller does not answer 404 — the interior empty segment counts,
the URL parses, and with a matching empty secret a build is created
(status 200, one Extract and one CreateBuild call). -/
theorem serveHTTP_segment_counterexample :
    (specNonEmptySegments "/a//b").length < 3 ∧
    serveHTTP ⟨fun _ => Except.ok ⟨"a", "", ⟨"git", none, "t", "", none⟩⟩,
      fun _ => some (fun _ _ => Except.ok none),
      fun b => Except.ok b⟩ "/a//b" = ⟨200, 1, 1⟩ := by
  constructor
  · decide
  · rfl

/-- C9 witness: a request with a wrong secret gets 400 and no calls. -/
theorem serveHTTP_secret_witness :
    serveHTTP ⟨fun _ => Except.ok ⟨"a", "s", ⟨"git", none, "t", "", none⟩⟩,
      fun _ => none, fun b => Except.ok b⟩ "a/wrong/github" = ⟨400, 0, 0⟩ :=
  (serveHTTP_secret_and_short_path
      ⟨fun _ => Except.ok ⟨"a", "s", ⟨"git", none, "t", "", none⟩⟩,
        fun _ => none, fun b => Except.ok b⟩ "a/wrong/github").1
    ⟨"a", "wrong", "github", ""⟩ ⟨"a", "s", ⟨"git", none, "t", "", none⟩⟩
    rfl rfl (by decide)

/-- C4: a container whose health check errors during a syncPod pass is
kept — the pass issues no kill and no create for it and spares it from the
sweep — and a matching container is ever killed only on a fingerprint
mismatch or an actual unhealthy verdict, never on a health-check error. -/
theorem healthcheckError_keeps (probe : Prober) (now : Nat) (pfn : String)
    (acc : PassAcc) (c : ContainerSpec) (rc : RuntimeContainer) :
    (∀ e, findContainer acc.state.containers pfn c.name = some rc →
      fingerprintMatches rc c = true →
      Evaluate probe now pfn c rc = Except.error e →
      syncOne probe now pfn acc c = { acc with keptIds := rc.id :: acc.keptIds }) ∧
    (findContainer acc.state.containers pfn c.name = some rc →
      (syncOne probe now pfn acc c).kills ≠ acc.kills →
      fingerprintMatches rc c = false ∨
        Evaluate probe now pfn c rc = Except.ok Health.unhealthy) ∧
    (∀ (kept : List Nat) (s : NodeState), rc ∈ s.containers → rc.id ∈ kept →
      rc ∈ (sweep pfn kept s).1.containers) := by
  refine ⟨?_, ?_, ?_⟩
  · intro e hfind hfp hev
    have hkd : keepDecision probe now pfn c rc = true := by
      simp [keepDecision, hfp, hev]
    simp [syncOne, hfind, hkd]
  · intro hfind hkill
    by_cases hkd : keepDecision probe now pfn c rc = true
    · exact absurd (by simp [syncOne, hfind, hkd] :
        (syncOne probe now pfn acc c).kills = acc.kills) hkill
    · by_cases hfp : fingerprintMatches rc c = true
      · right
        cases hev : Evaluate probe now pfn c rc with
        | error e => exact absurd (by simp [keepDecision, hfp, hev]) hkd
        | ok v =>
            cases v with
            | healthy => exact absurd (by simp [keepDecision, hfp, hev]) hkd
            | unhealthy => rfl
      · left
        revert hfp
        cases fingerprintMatches rc c <;> simp
  · intro kept s hmem hkept
    have hct : kept.contains rc.id = true := by simpa using hkept
    simp only [sweep]
    refine List.mem_filter.mpr ⟨hmem, ?_⟩
    simp only [Bool.not_eq_true']
    simp [hkept]

/-- C4 witness: a legacy-fingerprint running container whose probe errors
is kept with no kill or create. -/
theorem healthcheckError_keeps_witness :
    syncOne (fun _ _ _ => Except.error "down") 0 "p.test"
      ⟨⟨[⟨3, "p.test", "a", 0, 0, true⟩], 4⟩, 0, 0, [9]⟩
      ⟨"a", "img", [], [], [], [], false, false, some ⟨0⟩⟩ =
      ⟨⟨[⟨3, "p.test", "a", 0, 0, true⟩], 4⟩, 0, 0, [3, 9]⟩ :=
  (healthcheckError_keeps (fun _ _ _ => Except.error "down") 0 "p.test"
      ⟨⟨[⟨3, "p.test", "a", 0, 0, true⟩], 4⟩, 0, 0, [9]⟩
      ⟨"a", "img", [], [], [], [], false, false, some ⟨0⟩⟩
      ⟨3, "p.test", "a", 0, 0, true⟩).1 "down" rfl (by decide) rfl

theorem findContainer_cons_neg (x : RuntimeContainer) (l : List RuntimeContainer)
    (pfn name : String) (h : ¬(x.podFullName = pfn ∧ x.ctrName = name)) :
    findContainer (x :: l) pfn name = findContainer l pfn name := by
  unfold findContainer
  rw [List.find?_cons_of_neg]
  simp only [Bool.and_eq_true, beq_iff_eq]
  exact h

theorem findContainer_cons_pos (x : RuntimeContainer) (l : List RuntimeContainer)
    (pfn name : String) (h1 : x.podFullName = pfn) (h2 : x.ctrName = name) :
    findContainer (x :: l) pfn name = some x := by
  unfold findContainer
  rw [List.find?_cons_of_pos]
  simp [h1, h2]

theorem findContainer_mem {l : List RuntimeContainer} {pfn name : String}
    {rc : RuntimeContainer} (h : findContainer l pfn name = some rc) : rc ∈ l :=
  List.mem_of_find?_eq_some h

theorem findContainer_props {l : List RuntimeContainer} {pfn name : String}
    {rc : RuntimeContainer} (h : findContainer l pfn name = some rc) :
    rc.podFullName = pfn ∧ rc.ctrName = name := by
  have := List.find?_some h
  simpa using this

theorem find_after_kill (s : NodeState) (hWF : WF s) (pfn name : String)
    (rcK : RuntimeContainer) (hK : rcK ∈ s.containers) (hKname : rcK.ctrName ≠ name) :
    findContainer ((killContainer s rcK.id).containers) pfn name =
      findContainer s.containers pfn name := by
  unfold killContainer findContainer
  apply find_filter_skip
  intro x hx hq
  have hxid : x.id = rcK.id := by
    by_contra hne
    simp [hne] at hq
  have hx_eq : x = rcK := id_inj hWF.1 hx hK hxid
  have hne : (x.ctrName == name) = false := by
    rw [hx_eq]
    simpa using hKname
  simp [hne]

theorem ensureNet_inv (probe : Prober) (now : Nat) (pfn : String) (s : NodeState)
    (hWF : WF s) :
    PassInv probe now pfn (ensureNet now pfn s).2.2.2 []
      ⟨(ensureNet now pfn s).1, (ensureNet now pfn s).2.1,
        (ensureNet now pfn s).2.2.1, [(ensureNet now pfn s).2.2.2]⟩ := by
  cases hfind : findContainer s.containers pfn networkContainerName with
  | some rc =>
      simp only [ensureNet, hfind, PassInv]
      refine ⟨hWF, ⟨rc, rfl, rfl⟩, by simp, by simp, ?_⟩
      intro i hi
      left
      simpa using hi
  | none =>
      simp only [ensureNet, hfind, PassInv, createContainer]
      refine ⟨?_, ?_, by simp, by simp, ?_⟩
      · exact wf_create ⟨s.containers.filter (fun c => decide (c.podFullName ≠ pfn)),
          s.nextId⟩ pfn networkContainerName (Fingerprint networkContainerSpec) now
          (wf_filter s _ hWF)
      · refine ⟨⟨s.nextId, pfn, networkContainerName,
          Fingerprint networkContainerSpec, now, true⟩, ?_, rfl⟩
        exact findContainer_cons_pos _ _ _ _ rfl rfl
      · intro i hi
        left
        simpa using hi

theorem passInv_step (probe : Prober) (now : Nat) (pfn : String) (netId : Nat)
    (done : List ContainerSpec) (acc : PassAcc) (c : ContainerSpec)
    (Hprobe : ∀ pfn' c' rc', probe pfn' c' rc' ≠ Except.ok Health.unhealthy)
    (hcnet : c.name ≠ networkContainerName)
    (hcdone : ∀ d ∈ done, d.name ≠ c.name)
    (hinv : PassInv probe now pfn netId done acc) :
    PassInv probe now pfn netId (done ++ [c]) (syncOne probe now pfn acc c) := by
  obtain ⟨hwf, ⟨net, hnetfind, hnetid⟩, hnetkept, hdone, hkeptinv⟩ := hinv
  have hnetprops := findContainer_props hnetfind
  cases hfind : findContainer acc.state.containers pfn c.name with
  | some rc =>
      have hrcprops := findContainer_props hfind
      have hrcmem := findContainer_mem hfind
      by_cases hkd : keepDecision probe now pfn c rc = true
      · -- keep branch: state unchanged, the found container is spared
        have hsync : syncOne probe now pfn acc c =
            { acc with keptIds := rc.id :: acc.keptIds } := by
          simp [syncOne, hfind, hkd]
        rw [hsync]
        refine ⟨hwf, ⟨net, hnetfind, hnetid⟩,
          List.mem_cons_of_mem _ hnetkept, ?_, ?_⟩
        · intro d hd
          rcases List.mem_append.mp hd with hd | hd
          · obtain ⟨rd, h1, h2, h3⟩ := hdone d hd
            exact ⟨rd, h1, h2, List.mem_cons_of_mem _ h3⟩
          · have hdc : d = c := by simpa using hd
            subst hdc
            exact ⟨rc, hfind, hkd, List.mem_cons_self _ _⟩
        · intro i hi
          rcases List.mem_cons.mp hi with hi | hi
          · subst hi
            exact Or.inr ⟨c, List.mem_append_right _ (List.mem_cons_self _ _),
              rc, hfind, rfl⟩
          · rcases hkeptinv i hi with h | ⟨d, hd, rd, h1, h2⟩
            · exact Or.inl h
            · exact Or.inr ⟨d, List.mem_append_left _ hd, rd, h1, h2⟩
      · -- replace branch: kill the stale container, create a fresh one
        have hsync : syncOne probe now pfn acc c =
            ⟨⟨⟨acc.state.nextId, pfn, c.name, Fingerprint c, now, true⟩ ::
                (killContainer acc.state rc.id).containers,
              acc.state.nextId + 1⟩,
              acc.kills + 1, acc.creates + 1, acc.state.nextId :: acc.keptIds⟩ := by
          simp [syncOne, hfind, hkd, createContainer, killContainer]
        rw [hsync]
        have hpres : ∀ name, name ≠ c.name →
            findContainer (⟨acc.state.nextId, pfn, c.name, Fingerprint c, now, true⟩ ::
              (killContainer acc.state rc.id).containers) pfn name =
            findContainer acc.state.containers pfn name := by
          intro name hn
          rw [findContainer_cons_neg _ _ _ _ (by
            intro hcon
            exact hn (hcon.2.symm))]
          exact find_after_kill acc.state hwf pfn name rc hrcmem
            (by rw [hrcprops.2]; exact fun h => hn h.symm)
        refine ⟨?_, ?_, ?_, ?_, ?_⟩
        · exact wf_create (killContainer acc.state rc.id) pfn c.name (Fingerprint c)
            now (wf_kill acc.state rc.id hwf)
        · refine ⟨net, ?_, hnetid⟩
          rw [hpres networkContainerName (fun h => hcnet h.symm)]
          exact hnetfind
        · exact List.mem_cons_of_mem _ hnetkept
        · intro d hd
          rcases List.mem_append.mp hd with hd | hd
          · obtain ⟨rd, h1, h2, h3⟩ := hdone d hd
            refine ⟨rd, ?_, h2, List.mem_cons_of_mem _ h3⟩
            rw [hpres d.name (hcdone d hd)]
            exact h1
          · have hdc : d = c := by simpa using hd
            subst hdc
            refine ⟨⟨acc.state.nextId, pfn, d.name, Fingerprint d, now, true⟩,
              findContainer_cons_pos _ _ _ _ rfl rfl, ?_, List.mem_cons_self _ _⟩
            exact keep_new probe now pfn d acc.state.nextId Hprobe
        · intro i hi
          rcases List.mem_cons.mp hi with hi | hi
          · subst hi
            exact Or.inr ⟨c, List.mem_append_right _ (List.mem_cons_self _ _),
              ⟨acc.state.nextId, pfn, c.name, Fingerprint c, now, true⟩,
              findContainer_cons_pos _ _ _ _ rfl rfl, rfl⟩
          · rcases hkeptinv i hi with h | ⟨d, hd, rd, h1, h2⟩
            · exact Or.inl h
            · refine Or.inr ⟨d, List.mem_append_left _ hd, rd, ?_, h2⟩
              rw [hpres d.name (hcdone d hd)]
              exact h1
  | none =>
      -- create branch: no matching container, create a fresh one
      have hsync : syncOne probe now pfn acc c =
          ⟨⟨⟨acc.state.nextId, pfn, c.name, Fingerprint c, now, true⟩ ::
              acc.state.containers, acc.state.nextId + 1⟩,
            acc.kills, acc.creates + 1, acc.state.nextId :: acc.keptIds⟩ := by
        simp [syncOne, hfind, createContainer]
      rw [hsync]
      have hpres : ∀ name, name ≠ c.name →
          findContainer (⟨acc.state.nextId, pfn, c.name, Fingerprint c, now, true⟩ ::
            acc.state.containers) pfn name =
          findContainer acc.state.containers pfn name := by
        intro name hn
        exact findContainer_cons_neg _ _ _ _ (fun hcon => hn (hcon.2.symm))
      refine ⟨?_, ?_, ?_, ?_, ?_⟩
      · exact wf_create acc.state pfn c.name (Fingerprint c) now hwf
      · refine ⟨net, ?_, hnetid⟩
        rw [hpres networkContainerName (fun h => hcnet h.symm)]
        exact hnetfind
      · exact List.mem_cons_of_mem _ hnetkept
      · intro d hd
        rcases List.mem_append.mp hd with hd | hd
        · obtain ⟨rd, h1, h2, h3⟩ := hdone d hd
          refine ⟨rd, ?_, h2, List.mem_cons_of_mem _ h3⟩
          rw [hpres d.name (hcdone d hd)]
          exact h1
        · have hdc : d = c := by simpa using hd
          subst hdc
          refine ⟨⟨acc.state.nextId, pfn, d.name, Fingerprint d, now, true⟩,
            findContainer_cons_pos _ _ _ _ rfl rfl, ?_, List.mem_cons_self _ _⟩
          exact keep_new probe now pfn d acc.state.nextId Hprobe
      · intro i hi
        rcases List.mem_cons.mp hi with hi | hi
        · subst hi
          exact Or.inr ⟨c, List.mem_append_right _ (List.mem_cons_self _ _),
            ⟨acc.state.nextId, pfn, c.name, Fingerprint c, now, true⟩,
            findContainer_cons_pos _ _ _ _ rfl rfl, rfl⟩
        · rcases hkeptinv i hi with h | ⟨d, hd, rd, h1, h2⟩
          · exact Or.inl h
          · refine Or.inr ⟨d, List.mem_append_left _ hd, rd, ?_, h2⟩
            rw [hpres d.name (hcdone d hd)]
            exact h1

theorem passInv_fold (probe : Prober) (now : Nat) (pfn : String) (netId : Nat)
    (Hprobe : ∀ pfn' c' rc', probe pfn' c' rc' ≠ Except.ok Health.unhealthy) :
    ∀ (cs done : List ContainerSpec) (acc : PassAcc),
    (∀ c ∈ cs, c.name ≠ networkContainerName) →
    ((done ++ cs).map (fun c => c.name)).Nodup →
    PassInv probe now pfn netId done acc →
    PassInv probe now pfn netId (done ++ cs)
      (cs.foldl (syncOne probe now pfn) acc) := by
  intro cs
  induction cs with
  | nil =>
      intro done acc _ _ h
      simpa using h
  | cons c t ih =>
      intro done acc hnet hnodup hinv
      have hcdone : ∀ d ∈ done, d.name ≠ c.name := by
        intro d hd heq
        rw [List.map_append] at hnodup
        rcases List.nodup_append.mp hnodup with ⟨_, _, hdisj⟩
        exact hdisj (List.mem_map_of_mem _ hd)
          (by rw [heq]; exact List.mem_map_of_mem _ (List.mem_cons_self _ _))
      have hstep := passInv_step probe now pfn netId done acc c Hprobe
        (hnet c (List.mem_cons_self _ _)) hcdone hinv
      have harr : done ++ c :: t = (done ++ [c]) ++ t := by
        simp
      rw [harr]
      rw [harr] at hnodup
      simp only [List.foldl_cons]
      exact ih (done ++ [c]) (syncOne probe now pfn acc c)
        (fun x hx => hnet x (List.mem_cons_of_mem _ hx)) hnodup hstep

theorem sweep_wf (pfn : String) (kept : List Nat) (s : NodeState) (h : WF s) :
    WF (sweep pfn kept s).1 :=
  wf_filter s _ h

theorem sweep_find (pfn : String) (kept : List Nat) (s : NodeState) (name : String)
    (rc : RuntimeContainer) (hf : findContainer s.containers pfn name = some rc)
    (hk : rc.id ∈ kept) :
    findContainer (sweep pfn kept s).1.containers pfn name = some rc := by
  apply find_filter_keep _ _ _ _ hf
  have hct : kept.contains rc.id = true := by simpa using hk
  simp [hct]
  exact Or.inr hk

theorem sweep_members (pfn : String) (kept : List Nat) (s : NodeState) :
    ∀ x ∈ (sweep pfn kept s).1.containers, x.podFullName = pfn → x.id ∈ kept := by
  intro x hx hpfn
  obtain ⟨hmem, hcond⟩ := List.mem_filter.mp hx
  simp only [hpfn, Bool.not_eq_true', Bool.and_eq_false_iff, beq_self_eq_true] at hcond
  rcases hcond with h | h
  · simp at h
  · simpa using h

theorem sweep_kills_zero (pfn : String) (kept : List Nat) (s : NodeState)
    (h : ∀ x ∈ s.containers, x.podFullName = pfn → x.id ∈ kept) :
    (sweep pfn kept s).2 = 0 := by
  simp only [sweep, List.length_eq_zero]
  rw [List.filter_eq_nil_iff]
  intro x hx
  by_cases hpfn : x.podFullName = pfn
  · have hk : kept.contains x.id = true := by simpa using h x hx hpfn
    simp [hk]
    exact fun _ => h x hx hpfn
  · have : (x.podFullName == pfn) = false := by simpa using hpfn
    simp [this]

theorem fold_allKeep (probe : Prober) (now : Nat) (pfn : String) :
    ∀ (cs : List ContainerSpec) (st : NodeState) (k cr : Nat) (kept : List Nat),
    (∀ c ∈ cs, ∃ rc, findContainer st.containers pfn c.name = some rc ∧
      keepDecision probe now pfn c rc = true) →
    ∃ kept2, cs.foldl (syncOne probe now pfn) ⟨st, k, cr, kept⟩ = ⟨st, k, cr, kept2⟩ ∧
      (∀ i ∈ kept, i ∈ kept2) ∧
      (∀ c ∈ cs, ∀ rc, findContainer st.containers pfn c.name = some rc →
        rc.id ∈ kept2) := by
  intro cs
  induction cs with
  | nil =>
      intro st k cr kept _
      exact ⟨kept, rfl, fun i hi => hi, by simp⟩
  | cons c t ih =>
      intro st k cr kept h
      obtain ⟨rc, hfind, hkd⟩ := h c (List.mem_cons_self _ _)
      have hstep : syncOne probe now pfn ⟨st, k, cr, kept⟩ c = ⟨st, k, cr, rc.id :: kept⟩ := by
        simp [syncOne, hfind, hkd]
      obtain ⟨kept2, heq, hsub, hall⟩ := ih st k cr (rc.id :: kept)
        (fun c' hc' => h c' (List.mem_cons_of_mem _ hc'))
      refine ⟨kept2, ?_, fun i hi => hsub i (List.mem_cons_of_mem _ hi), ?_⟩
      · simp only [List.foldl_cons, hstep]
        exact heq
      · intro c' hc' rc' hf'
        rcases List.mem_cons.mp hc' with h1 | h1
        · subst h1
          rw [hfind] at hf'
          injection hf' with hf'
          subst hf'
          exact hsub _ (List.mem_cons_self _ _)
        · exact hall c' h1 rc' hf'

theorem syncPod_pass2 (probe : Prober) (now : Nat) (pod : Pod) (s' : NodeState)
    (H1 : ∃ net, findContainer s'.containers (podFullName pod)
      networkContainerName = some net)
    (H2 : ∀ c ∈ pod.containers, ∃ rc,
      findContainer s'.containers (podFullName pod) c.name = some rc ∧
      keepDecision probe now (podFullName pod) c rc = true)
    (H3 : ∀ x ∈ s'.containers, x.podFullName = podFullName pod →
      findContainer s'.containers (podFullName pod) x.ctrName = some x ∧
      (x.ctrName = networkContainerName ∨ ∃ c ∈ pod.containers, c.name = x.ctrName)) :
    (syncPod probe now pod s').creates = 0 ∧ (syncPod probe now pod s').kills = 0 := by
  obtain ⟨net, hnet⟩ := H1
  have hen : ensureNet now (podFullName pod) s' = (s', 0, 0, net.id) := by
    simp [ensureNet, hnet]
  obtain ⟨kept2, hfold, hsub, hall⟩ := fold_allKeep probe now (podFullName pod)
    pod.containers s' 0 0 [net.id] H2
  have hsweepkept : ∀ x ∈ s'.containers, x.podFullName = podFullName pod →
      x.id ∈ kept2 := by
    intro x hx hpfn
    obtain ⟨hfx, hname⟩ := H3 x hx hpfn
    rcases hname with hn | ⟨c, hc, hcn⟩
    · rw [hn, hnet] at hfx
      injection hfx with hfx
      rw [← hfx]
      exact hsub net.id (List.mem_cons_self _ _)
    · rw [← hcn] at hfx
      exact hall c hc x hfx
  have hzero := sweep_kills_zero (podFullName pod) kept2 s' hsweepkept
  constructor
  · simp only [syncPod, hen, hfold]
  · simp only [syncPod, hen, hfold, hzero]

theorem syncPod_pass1 (probe : Prober) (now : Nat) (pod : Pod) (s : NodeState)
    (Hprobe : ∀ pfn' c' rc', probe pfn' c' rc' ≠ Except.ok Health.unhealthy)
    (hnodup : (pod.containers.map (fun c => c.name)).Nodup)
    (hnn : ∀ c ∈ pod.containers, c.name ≠ networkContainerName)
    (hWF : WF s) :
    WF (syncPod probe now pod s).state ∧
    (∃ net, findContainer (syncPod probe now pod s).state.containers
      (podFullName pod) networkContainerName = some net) ∧
    (∀ c ∈ pod.containers, ∃ rc,
      findContainer (syncPod probe now pod s).state.containers
        (podFullName pod) c.name = some rc ∧
      keepDecision probe now (podFullName pod) c rc = true) ∧
    (∀ x ∈ (syncPod probe now pod s).state.containers,
      x.podFullName = podFullName pod →
      findContainer (syncPod probe now pod s).state.containers
        (podFullName pod) x.ctrName = some x ∧
      (x.ctrName = networkContainerName ∨
        ∃ c ∈ pod.containers, c.name = x.ctrName)) := by
  have hinv0 := ensureNet_inv probe now (podFullName pod) s hWF
  have hinvF := passInv_fold probe now (podFullName pod)
    (ensureNet now (podFullName pod) s).2.2.2 Hprobe pod.containers []
    ⟨(ensureNet now (podFullName pod) s).1, (ensureNet now (podFullName pod) s).2.1,
      (ensureNet now (podFullName pod) s).2.2.1,
      [(ensureNet now (podFullName pod) s).2.2.2]⟩
    hnn (by simpa using hnodup) hinv0
  simp only [List.nil_append] at hinvF
  obtain ⟨hwfF, ⟨net, hnetF, hnetidF⟩, hnetkeptF, hdoneF, hkeptF⟩ := hinvF
  have hstate : (syncPod probe now pod s).state =
      (sweep (podFullName pod)
        (pod.containers.foldl (syncOne probe now (podFullName pod))
          ⟨(ensureNet now (podFullName pod) s).1,
            (ensureNet now (podFullName pod) s).2.1,
            (ensureNet now (podFullName pod) s).2.2.1,
            [(ensureNet now (podFullName pod) s).2.2.2]⟩).keptIds
        (pod.containers.foldl (syncOne probe now (podFullName pod))
          ⟨(ensureNet now (podFullName pod) s).1,
            (ensureNet now (podFullName pod) s).2.1,
            (ensureNet now (podFullName pod) s).2.2.1,
            [(ensureNet now (podFullName pod) s).2.2.2]⟩).state).1 := rfl
  rw [hstate]
  set accF := pod.containers.foldl (syncOne probe now (podFullName pod))
    ⟨(ensureNet now (podFullName pod) s).1,
      (ensureNet now (podFullName pod) s).2.1,
      (ensureNet now (podFullName pod) s).2.2.1,
      [(ensureNet now (podFullName pod) s).2.2.2]⟩ with haccF
  have hnetkept : net.id ∈ accF.keptIds := by
    rw [hnetidF]; exact hnetkeptF
  have hnetS := sweep_find (podFullName pod) accF.keptIds accF.state
    networkContainerName net hnetF hnetkept
  refine ⟨sweep_wf _ _ _ hwfF, ⟨net, hnetS⟩, ?_, ?_⟩
  · intro c hc
    obtain ⟨rc, h1, h2, h3⟩ := hdoneF c hc
    exact ⟨rc, sweep_find _ _ _ _ _ h1 h3, h2⟩
  · intro x hx hpfn
    have hxmem : x ∈ accF.state.containers := List.mem_of_mem_filter hx
    have hxkept : x.id ∈ accF.keptIds := sweep_members _ _ _ x hx hpfn
    rcases hkeptF x.id hxkept with hid | ⟨c, hc, rc, hfindc, hrcid⟩
    · have hnetmem := findContainer_mem hnetF
      have hxnet : x = net := by
        refine id_inj hwfF.1 hxmem hnetmem ?_
        rw [hid, ← hnetidF]
      have hxname : x.ctrName = networkContainerName := by
        rw [hxnet]
        exact (findContainer_props hnetF).2
      refine ⟨?_, Or.inl hxname⟩
      rw [hxname, hnetS, hxnet]
    · have hrcmem := findContainer_mem hfindc
      have hxrc : x = rc := id_inj hwfF.1 hxmem hrcmem hrcid.symm
      have hxname : x.ctrName = c.name := by
        rw [hxrc]
        exact (findContainer_props hfindc).2
      obtain ⟨rd, hfind_rd, _, hrdkept⟩ := hdoneF c hc
      have hrd : rd = rc := by
        rw [hfindc] at hfind_rd
        injection hfind_rd with h
        exact h.symm
      refine ⟨?_, Or.inr ⟨c, hc, hxname.symm⟩⟩
      rw [hxname, sweep_find _ _ _ _ _ hfindc (by rw [← hrd]; exact hrdkept), hxrc]

/-- C1 (amended): for every pod whose container names are distinct and do
not use the reserved network-container name, and every well-formed runtime
state, running syncPod twice in succession with no external state change
issues no additional create and no additional kill calls on the second
run, provided the health checker reports no container unhealthy (a
persistently unhealthy verdict makes every pass kill and recreate, so the
unrestricted claim fails). -/
theorem syncPod_idempotent_of_no_unhealthy (probe : Prober) (now : Nat) (pod : Pod)
    (s : NodeState)
    (Hprobe : ∀ pfn c rc, probe pfn c rc ≠ Except.ok Health.unhealthy)
    (hnodup : (pod.containers.map (fun c => c.name)).Nodup)
    (hnn : ∀ c ∈ pod.containers, c.name ≠ networkContainerName)
    (hWF : WF s) :
    (syncPod probe now pod (syncPod probe now pod s).state).creates = 0 ∧
    (syncPod probe now pod (syncPod probe now pod s).state).kills = 0 := by
  obtain ⟨hwf2, h1, h2, h3⟩ := syncPod_pass1 probe now pod s Hprobe hnodup hnn hWF
  exact syncPod_pass2 probe now pod _ h1 h2 h3

/-- C1 witness: a one-container pod reconciled twice from the empty node
with an always-healthy checker issues nothing on the second pass. -/
theorem syncPod_idempotent_witness :
    (syncPod (fun _ _ _ => Except.ok Health.healthy) 0
      ⟨"p", "test", [⟨"a", "img", [], [], [], [], false, false, none⟩]⟩
      (syncPod (fun _ _ _ => Except.ok Health.healthy) 0
        ⟨"p", "test", [⟨"a", "img", [], [], [], [], false, false, none⟩]⟩
        ⟨[], 0⟩).state).creates = 0 ∧
    (syncPod (fun _ _ _ => Except.ok Health.healthy) 0
      ⟨"p", "test", [⟨"a", "img", [], [], [], [], false, false, none⟩]⟩
      (syncPod (fun _ _ _ => Except.ok Health.healthy) 0
        ⟨"p", "test", [⟨"a", "img", [], [], [], [], false, false, none⟩]⟩
        ⟨[], 0⟩).state).kills = 0 :=
  syncPod_idempotent_of_no_unhealthy (fun _ _ _ => Except.ok Health.healthy) 0
    ⟨"p", "test", [⟨"a", "img", [], [], [], [], false, false, none⟩]⟩ ⟨[], 0⟩
    (fun _ _ _ h => Health.noConfusion (Except.ok.inj h))
    (by decide) (by decide) ⟨by simp, by simp⟩

/-- C1 counterexample: a pod whose single container declares a liveness
probe with zero initial delay, against a checker that steadily reports
unhealthy (a pure function of its arguments, so nothing external changes
between runs), makes the second syncPod pass issue one kill and one create
— refuting idempotence for every pod specification and runtime state. -/
theorem syncPod_not_idempotent_counterexample :
    (syncPod (fun _ _ _ => Except.ok Health.unhealthy) 0
      ⟨"p", "test", [⟨"a", "img", [], [], [], [], false, false, some ⟨0⟩⟩]⟩
      (syncPod (fun _ _ _ => Except.ok Health.unhealthy) 0
        ⟨"p", "test", [⟨"a", "img", [], [], [], [], false, false, some ⟨0⟩⟩]⟩
        ⟨[], 0⟩).state).creates = 1 ∧
    (syncPod (fun _ _ _ => Except.ok Health.unhealthy) 0
      ⟨"p", "test", [⟨"a", "img", [], [], [], [], false, false, some ⟨0⟩⟩]⟩
      (syncPod (fun _ _ _ => Except.ok Health.unhealthy) 0
        ⟨"p", "test", [⟨"a", "img", [], [], [], [], false, false, some ⟨0⟩⟩]⟩
        ⟨[], 0⟩).state).kills = 1 := by
  constructor
  · decide
  · decide
